import Mathlib

/-!
Verification of the TikTok userbot (`bot_tiktok_userbot.py`) against its
natural-language specification.  The Python source is shallowly embedded:
pure helpers become Lean functions, the async handler becomes a pure
function from an oracle environment (probe results, subprocess outcomes,
fault injection for the messaging calls) to a result record listing the
outbound actions, the exception escaping the handler (if any) and the
final state of the per-request temporary artifacts.
-/

set_option maxRecDepth 8192

namespace TikTokBot

/-! ### Numeric helper: `human_mb` (source lines 61-62)

`human_mb` is `round(bytes_size / (1024 * 1024), 2)`.  Python's `round`
rounds half to even (banker's rounding); we model the exact rational
semantics, `round(x, 2) = roundHalfEven (x * 100) / 100`. -/

/-- Round a rational to the nearest integer, ties going to the even integer,
as Python's builtin `round` does.  (Written with `Rat.floor` so that it
evaluates by kernel reduction.) -/
def roundHalfEven (x : ℚ) : ℤ :=
  let f := x.floor
  if x - (f : ℚ) < 1/2 then f
  else if 1/2 < x - (f : ℚ) then f + 1
  else if f % 2 = 0 then f else f + 1

/-- Source `human_mb`: `round(bytes_size / (1024 * 1024), 2)`. -/
def human_mb (bytes_size : ℕ) : ℚ :=
  (roundHalfEven ((bytes_size : ℚ) * 100 / (1024 * 1024)) : ℚ) / 100

/-! ### Probe result and classifier (source lines 102-121)

The probe's metadata dictionary is modelled by the keys the program reads:
`_probe_error` (present iff the probe raised), `_unsupported`
(`info.get("_unsupported")`, absent keys read as falsy), `duration`
(`info.get("duration", None)`; `none` covers both an absent key and an
explicit `None`, `some 0` an explicit zero), `thumbnails`
(`info.get("thumbnails") or []`), and `entries` (`info.get("entries") or []`,
each element recorded as being a Python dict or not). -/

/-- An element of the probe's `entries` list: either a Python dict or some
other object. -/
inductive PyEntry
  | dict
  | other
deriving DecidableEq, Repr

structure Info where
  probe_error : Option String := none
  unsupported : Bool := false
  duration : Option ℚ := none
  thumbnails : List Unit := []
  entries : List PyEntry := []
deriving DecidableEq, Repr

/-- Python's `needle in haystack` on strings: `needle` occurs as a
contiguous substring of `haystack`. -/
def hasSub (needle hay : List Char) : Bool :=
  hay.tails.any (fun t => needle.isPrefixOf t)

/-- Source `probe_tiktok`: the oracle argument is the outcome of
`ydl.extract_info(url, download=False)` — either metadata or the message of
the exception it raised.  Every exception is converted into the error-marker
mapping, so the embedded probe is total (it never raises). -/
def probe_tiktok (r : Except String Info) : Info :=
  match r with
  | .ok i => i
  | .error msg =>
      { probe_error := some msg
        unsupported :=
          hasSub "Unsupported URL".toList msg.toList
          || hasSub "RegexMatchError".toList msg.toList }

/-- Source `is_slideshow_from_info` (lines 111-121).  The Python guard
`if not info or "_probe_error" in info: return False` also returns `False`
for the empty dict; the empty dict is the all-default `Info`, on which the
remaining checks below return `false` as well, so only the `probe_error`
test is needed. -/
def is_slideshow_from_info (info : Info) : Bool :=
  if info.probe_error.isSome then false
  else if !info.entries.isEmpty && info.entries.all (· = PyEntry.dict) then true
  else decide (info.duration = none ∨ info.duration = some 0)
       && decide (2 ≤ info.thumbnails.length)

/-- The handler's combined classification (lines 205-208):
`slideshow = is_slideshow_from_info(info)` followed by
`if info.get("_unsupported"): slideshow = True`. -/
def slideshow_decision (info : Info) : Bool :=
  is_slideshow_from_info info || info.unsupported

/-- Modelled from the spec for refutation: the claim's classifier, read
literally — slideshow iff the probe failed with an unsupported-URL class of
error, or the metadata has no playable duration and at least two thumbnails,
or the metadata contains a non-empty list of sub-entries (with no further
condition on the entries). -/
def claimed_is_slideshow (info : Info) : Bool :=
  (info.probe_error.isSome && info.unsupported)
  || (!info.probe_error.isSome
      && ((decide (info.duration = none ∨ info.duration = some 0)
           && decide (2 ≤ info.thumbnails.length))
          || !info.entries.isEmpty))

/-! ### Per-file size filter (handler lines 222-230) -/

/-- A collected slideshow image: its path and its size in bytes
(`p.stat().st_size`). -/
structure Image where
  path : String
  size : ℕ
deriving DecidableEq, Repr

/-- The handler's filtering loop (lines 223-230): keep the images whose
rounded megabyte size is at most `MAX_MB`, count the rest as skipped. -/
def filter_images_by_size (imgs : List Image) (max_mb : ℚ) : List Image × ℕ :=
  match imgs with
  | [] => ([], 0)
  | p :: rest =>
      let (f, s) := filter_images_by_size rest max_mb
      if human_mb p.size ≤ max_mb then (p :: f, s) else (f, s + 1)

/-! ### Album batching (source `send_in_albums`, lines 145-158)

`for i in range(0, len(files), per_album): send(files[i:i+per_album],
caption if i == 0 else None)`.  The result is the list of album messages in
the order they are sent: each carries its batch of files and an optional
caption.  The caption payload is kept polymorphic (the Python value is a
string).  Python raises `ValueError` on `range(..., 0)`; the only call site
passes `per_album=10`. -/

def albumChunks {α : Type} (files : List String) (cap : Option α) (per : ℕ) :
    List (List String × Option α) :=
  match files with
  | [] => []
  | f :: rest =>
      ((f :: rest).take per, cap) :: albumChunks (rest.drop (per - 1)) none per
termination_by files.length
decreasing_by
  simp only [List.length_cons, List.length_drop]
  omega

def send_in_albums {α : Type} (files : List String) (caption_head : α)
    (per_album : ℕ := 10) : List (List String × Option α) :=
  albumChunks files (some caption_head) per_album

/-! ### URL normalization (source lines 39-41)

`normalize_tiktok_url` is `urlunsplit((p.scheme, p.netloc,
p.path.rstrip('/'), "", ""))` for `p = urlsplit(u)`.  We embed CPython
3.11's `urllib.parse.urlsplit` / `urlunsplit` over `List Char`, with two
simplifications that are the identity on every URL this program feeds in
(a regex match of `https?://(www|vt|vm|m)?\.tiktok\.com/[^\s]+`):
the removal of tab/CR/LF bytes is dropped (the regex match contains no
whitespace), and the `ValueError` guards for bracketed IPv6 hosts and
non-ASCII netlocs are dropped (the matched netloc is always a fixed ASCII
host, bracket- and non-ASCII-free). -/

/-- CPython `scheme_chars`: ASCII letters, digits, `+`, `-`, `.`. -/
def scheme_char (c : Char) : Bool :=
  c.isAlpha || c.isDigit || c = '+' || c = '-' || c = '.'

/-- ASCII lowercasing by explicit table, as `str.lower` acts on the
validated (all-ASCII) scheme. -/
def lowerChar (c : Char) : Char :=
  match c with
  | 'A' => 'a' | 'B' => 'b' | 'C' => 'c' | 'D' => 'd' | 'E' => 'e'
  | 'F' => 'f' | 'G' => 'g' | 'H' => 'h' | 'I' => 'i' | 'J' => 'j'
  | 'K' => 'k' | 'L' => 'l' | 'M' => 'm' | 'N' => 'n' | 'O' => 'o'
  | 'P' => 'p' | 'Q' => 'q' | 'R' => 'r' | 'S' => 's' | 'T' => 't'
  | 'U' => 'u' | 'V' => 'v' | 'W' => 'w' | 'X' => 'x' | 'Y' => 'y'
  | 'Z' => 'z'
  | c => c

/-- Scan for `url[:i]` / `url[i+1:]` at the first `':'`, failing if a
non-scheme character appears first (CPython's `for ... else` loop). -/
def scanScheme : List Char → Option (List Char × List Char)
  | [] => none
  | c :: rest =>
      if c = ':' then some ([], rest)
      else if scheme_char c then
        match scanScheme rest with
        | some (s, r) => some (c :: s, r)
        | none => none
      else none

/-- CPython: `i = url.find(':')`; `if i > 0 and url[0].isascii() and
url[0].isalpha()` and all of `url[:i]` is in `scheme_chars`, then
`scheme, url = url[:i].lower(), url[i+1:]`.  Lean's `Char.isAlpha` is
exactly ASCII-alphabetic, matching the combined check. -/
def splitScheme (u : List Char) : List Char × List Char :=
  match u with
  | [] => ([], [])
  | c :: _ =>
      if c.isAlpha then
        match scanScheme u with
        | some (s, r) => if s = [] then ([], u) else (s.map lowerChar, r)
        | none => ([], u)
      else ([], u)

/-- A netloc delimiter: CPython `_splitnetloc` stops at the first of
`/`, `?`, `#`. -/
def netloc_delim (c : Char) : Bool := c = '/' || c = '?' || c = '#'

/-- CPython: `if url[:2] == '//': netloc, url = _splitnetloc(url, 2)`. -/
def splitNetloc : List Char → List Char × List Char
  | '/' :: '/' :: rest =>
      (rest.takeWhile (fun c => !netloc_delim c),
       rest.dropWhile (fun c => !netloc_delim c))
  | u => ([], u)

/-- CPython `url.split(d, 1)` preceded by `if d in url`: the part before
the first `d` and the part after it (the whole string and `[]` when `d` is
absent — identical to Python since a missing separator leaves the second
component empty either way). -/
def splitOnFirst (d : Char) : List Char → List Char × List Char
  | [] => ([], [])
  | c :: rest =>
      if c = d then ([], rest)
      else
        let (a, b) := splitOnFirst d rest
        (c :: a, b)

structure SplitResult where
  scheme : List Char
  netloc : List Char
  path : List Char
  query : List Char
  fragment : List Char
deriving DecidableEq, Repr

/-- CPython 3.11 `urlsplit` (with `allow_fragments=True`). -/
def urlsplit (u : List Char) : SplitResult :=
  let (scheme, rest1) := splitScheme u
  let (netloc, rest2) := splitNetloc rest1
  let (rest3, fragment) := splitOnFirst '#' rest2
  let (path, query) := splitOnFirst '?' rest3
  ⟨scheme, netloc, path, query, fragment⟩

/-- CPython `uses_netloc` (the schemes for which `urlunsplit` reinstates
`//` even with an empty netloc). -/
def uses_netloc : List (List Char) :=
  ["".toList, "ftp".toList, "http".toList, "gopher".toList, "nntp".toList,
   "telnet".toList, "imap".toList, "wais".toList, "file".toList,
   "mms".toList, "https".toList, "shttp".toList, "snews".toList,
   "prospero".toList, "rtsp".toList, "rtspu".toList, "rsync".toList,
   "svn".toList, "svn+ssh".toList, "sftp".toList, "nfs".toList,
   "git".toList, "git+ssh".toList, "ws".toList, "wss".toList]

/-- CPython 3.11 `urlunsplit`. -/
def urlunsplit (c : SplitResult) : List Char :=
  let url0 := c.path
  let url1 :=
    if c.netloc ≠ []
       ∨ (c.scheme ≠ [] ∧ c.scheme ∈ uses_netloc ∧ url0.take 2 ≠ ['/', '/'])
    then
      let url0' := if url0 ≠ [] ∧ url0.take 1 ≠ ['/'] then '/' :: url0 else url0
      '/' :: '/' :: (c.netloc ++ url0')
    else url0
  let url2 := if c.scheme ≠ [] then c.scheme ++ ':' :: url1 else url1
  let url3 := if c.query ≠ [] then url2 ++ '?' :: c.query else url2
  if c.fragment ≠ [] then url3 ++ '#' :: c.fragment else url3

/-- Python `s.rstrip('/')`. -/
def rstripSlash (u : List Char) : List Char :=
  (u.reverse.dropWhile (fun c => c = '/')).reverse

/-- Source `normalize_tiktok_url` (lines 39-41). -/
def normalize_tiktok_url (u : List Char) : List Char :=
  let p := urlsplit u
  urlunsplit ⟨p.scheme, p.netloc, rstripSlash p.path, [], []⟩

/-! ### Access filter (source lines 79-98)

The event's conversation: `event.chat` may be absent (`None`); `username`
records `getattr(event.chat, "username", None)` with the empty string kept
distinct because Python tests its truthiness; `id` records whether the
`hasattr(event.chat, "id")` probe succeeds and with what value.
`event.message.peer_id` exposes at most one of `user_id` / `chat_id` /
`channel_id`. -/

structure Chat where
  username : Option String := none
  id : Option Int := none
deriving DecidableEq, Repr

structure Peer where
  user_id : Option Int := none
  chat_id : Option Int := none
  channel_id : Option Int := none
deriving DecidableEq, Repr

/-- Python `str.lower()` as it acts on conversation keys.  Telegram
usernames match `[A-Za-z0-9_]+`, so ASCII lowering (`lowerChar`) is exact
on every key this program compares. -/
def pyLower (s : String) : String := ⟨s.toList.map lowerChar⟩

/-- The fallback of `_chat_key`: the first of `user_id`, `chat_id`,
`channel_id` that the peer object has, stringified. -/
def peerKey (p : Peer) : Option String :=
  match p.user_id with
  | some i => some (toString i)
  | none =>
      match p.chat_id with
      | some i => some (toString i)
      | none =>
          match p.channel_id with
          | some i => some (toString i)
          | none => none

/-! ### The oracle environment for the handler

Configuration fields mirror the module constants; the remaining fields are
the outcomes of the external calls the handler makes, in program order.
`fail site` injects an exception (with the given message) into the
messaging call at `site`; `none` means that call succeeds. -/

/-- The messaging-client calls of `tiktok_handler`, in source order. -/
inductive CallSite
  | initialReply
  | editSlideshowStatus
  | editGalleryFailed
  | editNoImages
  | editAllOversized
  | editSendingImages
  | sendAlbumBatch (i : ℕ)
  | deleteAfterAlbums
  | editVideoStatus
  | editNotDownloaded
  | editTooBig
  | editSendingVideo
  | sendVideo
  | deleteAfterVideo
  | editError
deriving DecidableEq, Repr

/-- Outcome of the yt-dlp download block (lines 259-264) when it does not
raise: whether `tmp_mp4.exists()` afterwards, and the file's byte size. -/
structure VideoOutcome where
  found : Bool
  size : ℕ
deriving DecidableEq, Repr

/-- Outcome of the gallery-dl subprocess (`subprocess.run`, lines 123-133). -/
structure GalleryOutcome where
  returncode : Int
  stderr_text : String
  stdout_text : String
deriving Repr

structure Env where
  ONLY_PRIVATE : Bool
  AUTO_CLEAN : Bool
  MAX_MB : ℚ
  ALLOWED : List String
  is_private : Bool
  chat : Option Chat
  peer_id : Peer
  matched : Option String
  probe : Except String Info
  gallery : GalleryOutcome
  images : List Image
  video_fetch : Except String VideoOutcome
  fail : CallSite → Option String

/-- Source `_chat_key` (lines 79-90).  `getattr(None, "username", None)`
is `None` and `hasattr(None, "id")` is false, so an absent chat falls
through to the peer attributes; an empty-string username is falsy and also
falls through to the `id` probe. -/
def _chat_key (env : Env) : Option String :=
  match env.chat with
  | some c =>
      match c.username with
      | some u =>
          if u = "" then
            match c.id with
            | some i => some (toString i)
            | none => peerKey env.peer_id
          else some (pyLower ("@" ++ u))
      | none =>
          match c.id with
          | some i => some (toString i)
          | none => peerKey env.peer_id
  | none => peerKey env.peer_id

/-- Source `chat_is_allowed` (lines 92-98). -/
def chat_is_allowed (env : Env) : Bool :=
  if env.ONLY_PRIVATE && !env.is_private then false
  else if env.ALLOWED.isEmpty then true
  else
    match _chat_key env with
    | some key => env.ALLOWED.contains (pyLower key)
    | none => false

/-! ### The handler (source lines 182-294) as a pure function -/

/-- The user-visible payload of each progress/reply message, with Python's
string formatting abstracted to the interpolated values. -/
inductive Msg
  | scanning (url : List Char)
  | slideshowStatus
  | galleryFailed (err : List Char)
  | noImages
  | allOversized (max_mb : ℚ)
  | sendingImages (kept skipped : ℕ)
  | videoStatus
  | notDownloaded
  | sizeExceeded (size_mb max_mb : ℚ)
  | sendingVideo
  | errorText (e : String)
deriving DecidableEq, Repr

/-- An outbound messaging action performed by the handler.  Album captions
carry the image count interpolated into the caption string. -/
inductive Action
  | reply (m : Msg)
  | edit (m : Msg)
  | deleteProgress
  | sendAlbum (files : List String) (cap : Option ℕ)
  | sendVideoFile (size_mb : ℚ)
deriving DecidableEq, Repr

/-- Python `s.strip()` (over the ASCII whitespace the messages at hand can
contain). -/
def pyStrip (s : String) : String :=
  ⟨((s.toList.dropWhile Char.isWhitespace).reverse.dropWhile
      Char.isWhitespace).reverse⟩

/-- Python `err = proc.stderr.strip() or proc.stdout.strip()`, truncated to
500 characters (`err[:500]`). -/
def galleryErrText (g : GalleryOutcome) : List Char :=
  (if pyStrip g.stderr_text ≠ "" then pyStrip g.stderr_text
   else pyStrip g.stdout_text).toList.take 500

/-- Result of running the album-send loop of `send_in_albums`
(line 158): the `send_file` actions performed before the first injected
fault, and that fault's message if any. -/
def runAlbumSends (env : Env) :
    List (List String × Option ℕ) → ℕ → List Action × Option String
  | [], _ => ([], none)
  | (files, cap) :: rest, i =>
      match env.fail (.sendAlbumBatch i) with
      | some e => ([], some e)
      | none =>
          let (as, ex) := runAlbumSends env rest (i + 1)
          (.sendAlbum files cap :: as, ex)

/-- The observable outcome of the `try:` block (lines 204-283): actions
performed, the exception it raised (if any), and the request state on exit.
`slideRemains` starts `true` (the slideshow directory was created at line
199) and is cleared only by the success-path auto-clean at lines 252-254;
`videoRemains` tracks whether a downloaded video file is still on disk
when the block exits. -/
structure TryOut where
  actions : List Action
  exc : Option String
  videoRemains : Bool
  slideRemains : Bool
  successVideo : Bool
  successSlideshow : Bool
deriving Repr

def tryBody (env : Env) : TryOut :=
  let info := probe_tiktok env.probe
  if slideshow_decision info then
    match env.fail .editSlideshowStatus with
    | some e => ⟨[], some e, false, true, false, false⟩
    | none =>
        let a1 : List Action := [.edit .slideshowStatus]
        if env.gallery.returncode ≠ 0 then
          match env.fail .editGalleryFailed with
          | some e => ⟨a1, some e, false, true, false, false⟩
          | none =>
              ⟨a1 ++ [.edit (.galleryFailed (galleryErrText env.gallery))],
               none, false, true, false, false⟩
        else
          let imgs := env.images
          if imgs.isEmpty then
            match env.fail .editNoImages with
            | some e => ⟨a1, some e, false, true, false, false⟩
            | none => ⟨a1 ++ [.edit .noImages], none, false, true, false, false⟩
          else
            let fs := filter_images_by_size imgs env.MAX_MB
            if fs.1.isEmpty then
              match env.fail .editAllOversized with
              | some e => ⟨a1, some e, false, true, false, false⟩
              | none =>
                  ⟨a1 ++ [.edit (.allOversized env.MAX_MB)], none,
                   false, true, false, false⟩
            else
              match env.fail .editSendingImages with
              | some e => ⟨a1, some e, false, true, false, false⟩
              | none =>
                  let a2 := a1 ++ [.edit (.sendingImages fs.1.length fs.2)]
                  let albums :=
                    send_in_albums (fs.1.map Image.path) fs.1.length 10
                  let (sendActs, sendExc) := runAlbumSends env albums 0
                  match sendExc with
                  | some e => ⟨a2 ++ sendActs, some e, false, true, false, false⟩
                  | none =>
                      match env.fail .deleteAfterAlbums with
                      | some e =>
                          ⟨a2 ++ sendActs, some e, false, true, false, false⟩
                      | none =>
                          ⟨a2 ++ sendActs ++ [.deleteProgress], none, false,
                           !env.AUTO_CLEAN, false, true⟩
  else
    match env.fail .editVideoStatus with
    | some e => ⟨[], some e, false, true, false, false⟩
    | none =>
        let a1 : List Action := [.edit .videoStatus]
        match env.video_fetch with
        | .error e => ⟨a1, some e, true, true, false, false⟩
        | .ok out =>
            if !out.found then
              match env.fail .editNotDownloaded with
              | some e => ⟨a1, some e, false, true, false, false⟩
              | none =>
                  ⟨a1 ++ [.edit .notDownloaded], none, false, true,
                   false, false⟩
            else
              let size_mb := human_mb out.size
              if env.MAX_MB < size_mb then
                match env.fail .editTooBig with
                | some e => ⟨a1, some e, true, true, false, false⟩
                | none =>
                    ⟨a1 ++ [.edit (.sizeExceeded size_mb env.MAX_MB)], none,
                     false, true, false, false⟩
              else
                match env.fail .editSendingVideo with
                | some e => ⟨a1, some e, true, true, false, false⟩
                | none =>
                    let a2 := a1 ++ [.edit .sendingVideo]
                    match env.fail .sendVideo with
                    | some e => ⟨a2, some e, true, true, false, false⟩
                    | none =>
                        let a3 := a2 ++ [.sendVideoFile size_mb]
                        match env.fail .deleteAfterVideo with
                        | some e => ⟨a3, some e, true, true, false, false⟩
                        | none =>
                            ⟨a3 ++ [.deleteProgress], none, !env.AUTO_CLEAN,
                             true, true, false⟩

/-- The handler's observable outcome: the outbound actions in order, the
exception escaping into the event dispatcher (if any), the exception caught
by the top-level `except` (if any), whether the per-request video file and
slideshow directory are still on disk on return, whether the slideshow
directory was created at all, and the two success flags. -/
structure HResult where
  actions : List Action
  raised : Option String
  caught : Option String
  videoRemains : Bool
  slideRemains : Bool
  slideDirCreated : Bool
  successVideo : Bool
  successSlideshow : Bool
deriving Repr

/-- Source `tiktok_handler` (lines 182-294).  The `finally:` block always
removes the (current) temporary video file — `clean_video_files([tmp_mp4])`
when auto-clean is on, `safe_unlink(tmp_mp4)` otherwise — and it swallows
its own errors; it never touches the slideshow directory. -/
def tiktok_handler (env : Env) : HResult :=
  if chat_is_allowed env then
    match env.matched with
    | none => ⟨[], none, none, false, false, false, false, false⟩
    | some raw_url =>
        let url := normalize_tiktok_url raw_url.toList
        match env.fail .initialReply with
        | some e => ⟨[], some e, none, false, false, false, false, false⟩
        | none =>
            -- slide_dir.mkdir(exist_ok=True) at line 199
            let tr := tryBody env
            let post :
                List Action × Option String × Option String :=
              match tr.exc with
              | none => (tr.actions, none, none)
              | some e =>
                  match env.fail .editError with
                  | none => (tr.actions ++ [.edit (.errorText e)], some e, none)
                  | some e2 => (tr.actions, some e, some e2)
            ⟨.reply (.scanning url) :: post.1, post.2.2, post.2.1,
             false, tr.slideRemains, true, tr.successVideo,
             tr.successSlideshow⟩
  else ⟨[], none, none, false, false, false, false, false⟩

/-! ### Concrete instances used as test vectors -/

/-- A baseline environment: private chat, empty allow-list, 20 MB cap,
auto-clean on, all messaging calls succeeding, probe returning empty
metadata, a 5 MB video download. -/
def baseEnv : Env where
  ONLY_PRIVATE := true
  AUTO_CLEAN := true
  MAX_MB := 20
  ALLOWED := []
  is_private := true
  chat := some { username := some "alice", id := some 10 }
  peer_id := { user_id := some 10 }
  matched := some "https://www.tiktok.com/@u/video/1"
  probe := .ok {}
  gallery := ⟨0, "", ""⟩
  images := []
  video_fetch := .ok ⟨true, 5242880⟩
  fail := fun _ => none

/-- Slideshow request (probe fails with an unsupported-URL error) whose
gallery-dl subprocess exits nonzero, with auto-clean enabled. -/
def envGalleryFails : Env :=
  { baseEnv with
      probe := .error "ERROR: Unsupported URL: https://www.tiktok.com/@u/photo/1"
      gallery := ⟨1, "gallery-dl: error", ""⟩ }

/-- Video download raises and the error-report edit of the progress message
raises as well. -/
def envEditErrorFails : Env :=
  { baseEnv with
      video_fetch := .error "HTTP Error 500"
      fail := fun s => if s = .editError then some "MessageDeletedError" else none }

/-- Video download raises; everything else succeeds. -/
def envFetchRaises : Env :=
  { baseEnv with video_fetch := .error "HTTP Error 500" }

/-- A group-chat message with private-only mode enabled. -/
def envGroupChat : Env :=
  { baseEnv with is_private := false }

/-- A private chat whose key is on the allow-list. -/
def envOnAllowList : Env :=
  { baseEnv with ALLOWED := ["@alice"] }

/-- Slideshow metadata (no duration, two thumbnails) whose single collected
image exceeds the 20 MB cap. -/
def envAllOversized : Env :=
  { baseEnv with
      probe := .ok { duration := none, thumbnails := [(), ()] }
      images := [⟨"slide/tt_1/01.jpg", 26214400⟩] }

/-- Slideshow metadata with twelve collected images under the cap. -/
def envTwelveImages : Env :=
  { baseEnv with
      probe := .ok { duration := none, thumbnails := [(), ()] }
      images :=
        [⟨"d/01.jpg", 1048576⟩, ⟨"d/02.jpg", 1048576⟩, ⟨"d/03.jpg", 1048576⟩,
         ⟨"d/04.jpg", 1048576⟩, ⟨"d/05.jpg", 1048576⟩, ⟨"d/06.jpg", 1048576⟩,
         ⟨"d/07.jpg", 1048576⟩, ⟨"d/08.jpg", 1048576⟩, ⟨"d/09.jpg", 1048576⟩,
         ⟨"d/10.jpg", 1048576⟩, ⟨"d/11.jpg", 1048576⟩, ⟨"d/12.jpg", 1048576⟩] }

/-- A successfully downloaded video of 25 MB against the 20 MB cap. -/
def envVideoTooBig : Env :=
  { baseEnv with video_fetch := .ok ⟨true, 26214400⟩ }

/-- A successfully downloaded video 5242 bytes over the whole-megabyte cap. -/
def envVideoJustOver : Env :=
  { baseEnv with video_fetch := .ok ⟨true, 20976762⟩ }

/-- A probe failure whose message contains neither "Unsupported URL" nor
"RegexMatchError". -/
def envProbePlainError : Env :=
  { baseEnv with probe := .error "HTTP Error 403: Forbidden" }

/-- A probe failure whose message contains "RegexMatchError". -/
def envProbeRegexError : Env :=
  { baseEnv with probe := .error "RegexMatchError: nothing matched" }

/-- Metadata whose `entries` list is non-empty but contains a non-dict
element, with a positive duration: the claimed classifier calls it a
slideshow, the code classifies it as a video. -/
def infoEntriesNonDict : Info :=
  { duration := some 12, entries := [.other] }

/-! ## Theorems -/

/-! ### Shared helper lemmas about the handler's top level -/

theorem handler_denied_no_actions (env : Env)
    (h : chat_is_allowed env = false) :
    (tiktok_handler env).actions = [] ∧ (tiktok_handler env).raised = none := by
  unfold tiktok_handler
  rw [h]
  exact ⟨rfl, rfl⟩

theorem handler_actions_shape (env : Env) (raw : String)
    (hallow : chat_is_allowed env = true)
    (hm : env.matched = some raw)
    (hr : env.fail .initialReply = none) :
    ∃ tail,
      (tiktok_handler env).actions =
        .reply (.scanning (normalize_tiktok_url raw.toList))
          :: ((tryBody env).actions ++ tail)
      ∧ (tail = [] ∨ ∃ e, tail = [.edit (.errorText e)]) := by
  unfold tiktok_handler
  rw [hallow, hm, hr]
  simp only
  cases hexc : (tryBody env).exc with
  | none => exact ⟨[], by simp [hexc], Or.inl rfl⟩
  | some e =>
      cases hee : env.fail .editError with
      | none => exact ⟨[.edit (.errorText e)], by simp [hexc, hee], Or.inr ⟨e, rfl⟩⟩
      | some e2 => exact ⟨[], by simp [hexc, hee], Or.inl rfl⟩

theorem handler_caught_eq (env : Env) (raw : String)
    (hallow : chat_is_allowed env = true)
    (hm : env.matched = some raw)
    (hr : env.fail .initialReply = none) :
    (tiktok_handler env).caught = (tryBody env).exc := by
  unfold tiktok_handler
  rw [hallow, hm, hr]
  simp only
  cases hexc : (tryBody env).exc with
  | none => simp [hexc]
  | some e =>
      cases hee : env.fail .editError with
      | none => simp [hexc, hee]
      | some e2 => simp [hexc, hee]

theorem handler_raised_none (env : Env) (raw : String)
    (hallow : chat_is_allowed env = true)
    (hm : env.matched = some raw)
    (hr : env.fail .initialReply = none)
    (he : env.fail .editError = none) :
    (tiktok_handler env).raised = none := by
  unfold tiktok_handler
  rw [hallow, hm, hr]
  simp only
  cases hexc : (tryBody env).exc with
  | none => simp [hexc]
  | some e => simp [hexc, he]

theorem handler_error_edit (env : Env) (raw : String) (e : String)
    (hallow : chat_is_allowed env = true)
    (hm : env.matched = some raw)
    (hr : env.fail .initialReply = none)
    (he : env.fail .editError = none)
    (hexc : (tryBody env).exc = some e) :
    Action.edit (.errorText e) ∈ (tiktok_handler env).actions := by
  unfold tiktok_handler
  rw [hallow, hm, hr]
  simp [hexc, he]

/-! ### C2: the classifier -/

/-- Claim C2: the claim's classifier calls any metadata with a non-empty
`entries` list a slideshow, but a non-dict element makes the code skip the
entries test: `duration=12` with `entries=[<non-dict>]` is claimed slideshow
yet classified as video. -/
theorem claim_C2_counterexample :
    claimed_is_slideshow infoEntriesNonDict = true
    ∧ slideshow_decision infoEntriesNonDict = false := by decide

/-- Claim C2, amended: the request is classified as slideshow iff the probe
result carries the unsupported-URL marker (set for probe failures whose
message contains "Unsupported URL" or "RegexMatchError"), or the probe did
not fail and either the entries list is non-empty with every entry a
mapping, or the duration is absent/zero with at least two thumbnails.  The
claim's concrete vectors all hold: duration `None` with 3 thumbnails is a
slideshow, duration 12 with 1 thumbnail is a video, and a probe error
containing "Unsupported URL" is a slideshow. -/
theorem claim_C2 :
    (∀ info : Info,
      slideshow_decision info =
        (info.unsupported
         || (!info.probe_error.isSome
             && ((!info.entries.isEmpty && info.entries.all (· = PyEntry.dict))
                 || (decide (info.duration = none ∨ info.duration = some 0)
                     && decide (2 ≤ info.thumbnails.length))))))
    ∧ slideshow_decision { duration := none, thumbnails := [(), (), ()] } = true
    ∧ slideshow_decision { duration := some 12, thumbnails := [()] } = false
    ∧ slideshow_decision
        (probe_tiktok (.error "ERROR: Unsupported URL: x")) = true := by
  refine ⟨fun info => ?_, by decide, by decide, by decide⟩
  unfold slideshow_decision is_slideshow_from_info
  cases hp : info.probe_error.isSome <;>
    cases he : !info.entries.isEmpty && info.entries.all (· = PyEntry.dict) <;>
      simp [hp, he, Bool.or_comm]

/-! ### C9: probe failures -/

theorem tryBody_video_route (env : Env)
    (hcls : slideshow_decision (probe_tiktok env.probe) = false)
    (hev : env.fail .editVideoStatus = none) :
    Action.edit Msg.videoStatus ∈ (tryBody env).actions
    ∧ Action.edit Msg.slideshowStatus ∉ (tryBody env).actions := by
  unfold tryBody
  simp only [hcls, hev, Bool.false_eq_true, if_false]
  repeat' split
  all_goals simp_all

/-- Claim C9: the embedded probe is total — every probe exception becomes
the error-marker mapping — a "RegexMatchError" message sets the unsupported
marker and routes to the slideshow path exactly like "Unsupported URL", and
a probe error containing neither marker is classified as a video, sending
the request down the video-download path (the handler edits the
video-status message and never the slideshow-status one). -/
theorem claim_C9 :
    (∀ msg : String,
      probe_tiktok (.error msg) =
        { probe_error := some msg
          unsupported := hasSub "Unsupported URL".toList msg.toList
                         || hasSub "RegexMatchError".toList msg.toList })
    ∧ (∀ msg : String, hasSub "RegexMatchError".toList msg.toList = true →
        slideshow_decision (probe_tiktok (.error msg)) = true)
    ∧ (∀ msg : String,
        hasSub "Unsupported URL".toList msg.toList = false →
        hasSub "RegexMatchError".toList msg.toList = false →
        slideshow_decision (probe_tiktok (.error msg)) = false)
    ∧ (∀ (env : Env) (raw msg : String),
        chat_is_allowed env = true → env.matched = some raw →
        env.fail .initialReply = none → env.probe = .error msg →
        hasSub "Unsupported URL".toList msg.toList = false →
        hasSub "RegexMatchError".toList msg.toList = false →
        env.fail .editVideoStatus = none →
        Action.edit Msg.videoStatus ∈ (tiktok_handler env).actions
        ∧ Action.edit Msg.slideshowStatus ∉ (tiktok_handler env).actions) := by
  refine ⟨fun msg => rfl, ?_, ?_, ?_⟩
  · intro msg h
    simp_all [probe_tiktok, slideshow_decision, is_slideshow_from_info]
  · intro msg h1 h2
    simp_all [probe_tiktok, slideshow_decision, is_slideshow_from_info]
  · intro env raw msg hallow hm hr hp h1 h2 hev
    have hcls : slideshow_decision (probe_tiktok env.probe) = false := by
      rw [hp]
      simp_all [probe_tiktok, slideshow_decision, is_slideshow_from_info]
    obtain ⟨vmem, vnot⟩ := tryBody_video_route env hcls hev
    obtain ⟨tail, hsh, htail⟩ := handler_actions_shape env raw hallow hm hr
    constructor
    · rw [hsh]
      exact List.mem_cons_of_mem _ (List.mem_append_left _ vmem)
    · rw [hsh]
      intro hmem
      rcases List.mem_cons.mp hmem with h | h
      · exact absurd h (by simp)
      · rcases List.mem_append.mp h with h | h
        · exact vnot h
        · rcases htail with rfl | ⟨e, rfl⟩
          · simp at h
          · simp at h

/-- Witness: a "RegexMatchError" probe failure classifies as slideshow, and
the plain probe failure "HTTP Error 403: Forbidden" goes down the
video-download path. -/
theorem claim_C9_witness :
    (slideshow_decision
        (probe_tiktok (.error "RegexMatchError: nothing matched")) = true)
    ∧ (Action.edit Msg.videoStatus ∈ (tiktok_handler envProbePlainError).actions
       ∧ Action.edit Msg.slideshowStatus ∉
           (tiktok_handler envProbePlainError).actions) :=
  ⟨claim_C9.2.1 _ (by decide),
   claim_C9.2.2.2 envProbePlainError "https://www.tiktok.com/@u/video/1"
     "HTTP Error 403: Forbidden" (by decide) rfl rfl rfl
     (by decide) (by decide) rfl⟩

/-! ### C5: the per-file size filter -/

theorem rat_floor_eq_intFloor (q : ℚ) : q.floor = ⌊q⌋ :=
  (Rat.floor_def' q).trans Rat.floor_def.symm

theorem roundHalfEven_intCast (n : ℤ) : roundHalfEven ((n : ℤ) : ℚ) = n := by
  unfold roundHalfEven
  rw [rat_floor_eq_intFloor, Int.floor_intCast]
  norm_num

theorem human_mb_whole (k : ℕ) : human_mb (k * 1048576) = (k : ℚ) := by
  unfold human_mb
  have h1 : ((k * 1048576 : ℕ) : ℚ) * 100 / (1024 * 1024)
      = (((k : ℤ) * 100 : ℤ) : ℚ) := by
    push_cast
    ring
  rw [h1, roundHalfEven_intCast]
  push_cast
  rw [mul_div_assoc]
  norm_num

theorem filter_images_spec (imgs : List Image) (cap : ℚ) :
    (filter_images_by_size imgs cap).1
      = imgs.filter (fun p => human_mb p.size ≤ cap)
    ∧ (filter_images_by_size imgs cap).2
      = imgs.countP (fun p => !(decide (human_mb p.size ≤ cap))) := by
  induction imgs with
  | nil => simp [filter_images_by_size]
  | cons p rest ih =>
      simp only [filter_images_by_size]
      by_cases h : human_mb p.size ≤ cap <;>
        simp [h, ih.1, ih.2, List.countP_cons]

theorem handler_raised_none_of_no_exc (env : Env) (raw : String)
    (hallow : chat_is_allowed env = true)
    (hm : env.matched = some raw)
    (hr : env.fail .initialReply = none)
    (hexc : (tryBody env).exc = none) :
    (tiktok_handler env).raised = none := by
  unfold tiktok_handler
  rw [hallow, hm, hr]
  simp [hexc]

theorem tryBody_all_oversized (env : Env)
    (hcls : slideshow_decision (probe_tiktok env.probe) = true)
    (hes : env.fail .editSlideshowStatus = none)
    (hrc : env.gallery.returncode = 0)
    (himg : env.images.isEmpty = false)
    (hfilt : (filter_images_by_size env.images env.MAX_MB).1.isEmpty = true)
    (heo : env.fail .editAllOversized = none) :
    (tryBody env).actions =
      [.edit .slideshowStatus, .edit (.allOversized env.MAX_MB)]
    ∧ (tryBody env).exc = none := by
  unfold tryBody
  simp [hcls, hes, hrc, himg, hfilt, heo]

/-- Claim C5: the size filter keeps exactly the images whose rounded
megabyte size is within the cap, as an order-preserving sublist, and counts
the oversized ones as skipped; on 5 MB/15 MB/25 MB images with a 20 MB cap
it keeps the first two and skips one; and a request all of whose images are
filtered out gets the all-oversized failure edit and nothing is sent. -/
theorem claim_C5 :
    (∀ (imgs : List Image) (cap : ℚ),
      (filter_images_by_size imgs cap).1
        = imgs.filter (fun p => human_mb p.size ≤ cap)
      ∧ List.Sublist (filter_images_by_size imgs cap).1 imgs
      ∧ (filter_images_by_size imgs cap).2
        = imgs.countP (fun p => !(decide (human_mb p.size ≤ cap))))
    ∧ (filter_images_by_size
         [⟨"01.jpg", 5242880⟩, ⟨"02.jpg", 15728640⟩, ⟨"03.jpg", 26214400⟩] 20
       = ([⟨"01.jpg", 5242880⟩, ⟨"02.jpg", 15728640⟩], 1))
    ∧ (∀ (env : Env) (raw : String),
        chat_is_allowed env = true → env.matched = some raw →
        env.fail .initialReply = none →
        slideshow_decision (probe_tiktok env.probe) = true →
        env.fail .editSlideshowStatus = none →
        env.gallery.returncode = 0 →
        env.images.isEmpty = false →
        (filter_images_by_size env.images env.MAX_MB).1.isEmpty = true →
        env.fail .editAllOversized = none →
        Action.edit (.allOversized env.MAX_MB) ∈ (tiktok_handler env).actions
        ∧ (∀ fs c, Action.sendAlbum fs c ∉ (tiktok_handler env).actions)
        ∧ (∀ q, Action.sendVideoFile q ∉ (tiktok_handler env).actions)
        ∧ (tiktok_handler env).raised = none) := by
  have h5 : human_mb 5242880 ≤ 20 := by
    rw [show (5242880 : ℕ) = 5 * 1048576 by norm_num, human_mb_whole]
    norm_num
  have h15 : human_mb 15728640 ≤ 20 := by
    rw [show (15728640 : ℕ) = 15 * 1048576 by norm_num, human_mb_whole]
    norm_num
  have h25 : ¬(human_mb 26214400 ≤ 20) := by
    rw [show (26214400 : ℕ) = 25 * 1048576 by norm_num, human_mb_whole]
    norm_num
  refine ⟨fun imgs cap => ?_, by simp [filter_images_by_size, h5, h15, h25], ?_⟩
  · obtain ⟨h1, h2⟩ := filter_images_spec imgs cap
    exact ⟨h1, h1 ▸ List.filter_sublist imgs, h2⟩
  · intro env raw hallow hm hr hcls hes hrc himg hfilt heo
    obtain ⟨hacts, hexc⟩ :=
      tryBody_all_oversized env hcls hes hrc himg hfilt heo
    obtain ⟨tail, hsh, htail⟩ := handler_actions_shape env raw hallow hm hr
    rw [hacts] at hsh
    refine ⟨?_, ?_, ?_, handler_raised_none_of_no_exc env raw hallow hm hr hexc⟩
    · rw [hsh]; simp
    · intro fs c hmem
      rw [hsh] at hmem
      rcases htail with rfl | ⟨e, rfl⟩ <;> simp at hmem
    · intro q hmem
      rw [hsh] at hmem
      rcases htail with rfl | ⟨e, rfl⟩ <;> simp at hmem

/-- Witness: the single 25 MB image against the 20 MB cap yields the
all-oversized failure edit and no video send. -/
theorem claim_C5_witness :
    Action.edit (Msg.allOversized envAllOversized.MAX_MB)
      ∈ (tiktok_handler envAllOversized).actions
    ∧ (∀ q, Action.sendVideoFile q ∉ (tiktok_handler envAllOversized).actions) := by
  have h25 : ¬(human_mb 26214400 ≤ 20) := by
    rw [show (26214400 : ℕ) = 25 * 1048576 by norm_num, human_mb_whole]
    norm_num
  have h := claim_C5.2.2 envAllOversized "https://www.tiktok.com/@u/video/1"
    (by decide) rfl rfl (by decide) rfl rfl (by decide)
    (by simp [envAllOversized, baseEnv, filter_images_by_size, h25]) rfl
  exact ⟨h.1, h.2.2.1⟩

/-! ### C7: album batching -/

theorem albumChunks_join {α : Type} (per : ℕ) (hper : 1 ≤ per) :
    ∀ (k : ℕ) (files : List String) (cap : Option α), files.length ≤ k →
      ((albumChunks files cap per).map Prod.fst).flatten = files := by
  intro k
  induction k with
  | zero =>
      intro files cap h
      have : files = [] := List.eq_nil_of_length_eq_zero (by omega)
      subst this
      simp [albumChunks]
  | succ k ih =>
      intro files cap h
      cases files with
      | nil => simp [albumChunks]
      | cons f rest =>
          rw [albumChunks]
          simp only [List.map_cons, List.flatten_cons]
          rw [ih (rest.drop (per - 1)) none
            (by simp only [List.length_drop]; simp at h; omega)]
          obtain ⟨p, rfl⟩ : ∃ p, per = p + 1 := ⟨per - 1, by omega⟩
          simp [List.take_succ_cons, List.take_append_drop]

theorem albumChunks_length {α : Type} (per : ℕ) (hper : 1 ≤ per) :
    ∀ (k : ℕ) (files : List String) (cap : Option α), files.length ≤ k →
      (albumChunks files cap per).length = (files.length + per - 1) / per := by
  intro k
  induction k with
  | zero =>
      intro files cap h
      have : files = [] := List.eq_nil_of_length_eq_zero (by omega)
      subst this
      simp [albumChunks, Nat.div_eq_of_lt (by omega : per - 1 < per)]
  | succ k ih =>
      intro files cap h
      cases files with
      | nil => simp [albumChunks, Nat.div_eq_of_lt (by omega : per - 1 < per)]
      | cons f rest =>
          rw [albumChunks]
          simp only [List.length_cons]
          rw [ih (rest.drop (per - 1)) none
            (by simp only [List.length_drop]; simp at h; omega)]
          simp only [List.length_drop]
          have hright : rest.length + 1 + per - 1 = rest.length + per := by omega
          rw [hright, Nat.add_div_right _ (by omega : 0 < per)]
          rcases le_or_lt (per - 1) rest.length with hc | hc
          · have : rest.length - (per - 1) + per - 1 = rest.length := by omega
            rw [this]
          · have h0 : rest.length - (per - 1) = 0 := by omega
            rw [h0]
            rw [Nat.div_eq_of_lt (by omega : 0 + per - 1 < per),
                Nat.div_eq_of_lt (by omega : rest.length < per)]

theorem albumChunks_batch_le {α : Type} (per : ℕ) :
    ∀ (k : ℕ) (files : List String) (cap : Option α), files.length ≤ k →
      ∀ b ∈ albumChunks files cap per, b.1.length ≤ per := by
  intro k
  induction k with
  | zero =>
      intro files cap h
      have : files = [] := List.eq_nil_of_length_eq_zero (by omega)
      subst this
      simp [albumChunks]
  | succ k ih =>
      intro files cap h b hb
      cases files with
      | nil => simp [albumChunks] at hb
      | cons f rest =>
          rw [albumChunks] at hb
          rcases List.mem_cons.mp hb with rfl | hb
          · simp only [List.length_take]
            omega
          · exact ih (rest.drop (per - 1)) none
              (by simp only [List.length_drop]; simp at h; omega) b hb

theorem albumChunks_tail_uncaptioned {α : Type} (per : ℕ) :
    ∀ (k : ℕ) (files : List String), files.length ≤ k →
      ∀ b ∈ albumChunks (α := α) files none per, b.2 = none := by
  intro k
  induction k with
  | zero =>
      intro files h
      have : files = [] := List.eq_nil_of_length_eq_zero (by omega)
      subst this
      simp [albumChunks]
  | succ k ih =>
      intro files h b hb
      cases files with
      | nil => simp [albumChunks] at hb
      | cons f rest =>
          rw [albumChunks] at hb
          rcases List.mem_cons.mp hb with rfl | hb
          · rfl
          · exact ih (rest.drop (per - 1))
              (by simp only [List.length_drop]; simp at h; omega) b hb

/-- Claim C7: delivering `n > 0` images sends `ceil(n/10)` albums of at
most 10 images each, whose concatenation is the original list in order;
the first album carries the caption and the later ones carry none. -/
theorem claim_C7 :
    ∀ (files : List String) (cap : ℕ), files ≠ [] →
      (send_in_albums files cap 10).length = (files.length + 9) / 10
      ∧ (∀ b ∈ send_in_albums files cap 10, b.1.length ≤ 10)
      ∧ ((send_in_albums files cap 10).map Prod.fst).flatten = files
      ∧ ((send_in_albums files cap 10).head?.map Prod.snd) = some (some cap)
      ∧ (∀ b ∈ (send_in_albums files cap 10).tail, b.2 = none) := by
  intro files cap hne
  refine ⟨?_, ?_, ?_, ?_, ?_⟩
  · have h := albumChunks_length (α := ℕ) 10 (by omega) files.length files
      (some cap) le_rfl
    simpa [send_in_albums] using h
  · exact fun b hb =>
      albumChunks_batch_le 10 files.length files (some cap) le_rfl b hb
  · exact albumChunks_join 10 (by omega) files.length files (some cap) le_rfl
  · cases files with
    | nil => exact absurd rfl hne
    | cons f rest => rw [send_in_albums, albumChunks]; rfl
  · cases files with
    | nil => exact absurd rfl hne
    | cons f rest =>
        rw [send_in_albums, albumChunks]
        intro b hb
        exact albumChunks_tail_uncaptioned 10 (rest.drop 9).length
          (rest.drop 9) le_rfl b hb

/-- Witness: twelve images are delivered as two albums — ten plus two,
first captioned, second not. -/
theorem claim_C7_witness :
    (send_in_albums
        ["01", "02", "03", "04", "05", "06", "07", "08", "09", "10", "11", "12"]
        (12 : ℕ) 10).length = (12 + 9) / 10
    ∧ ((send_in_albums
        ["01", "02", "03", "04", "05", "06", "07", "08", "09", "10", "11", "12"]
        (12 : ℕ) 10).head?.map Prod.snd) = some (some 12) := by
  have h := claim_C7
    ["01", "02", "03", "04", "05", "06", "07", "08", "09", "10", "11", "12"]
    12 (by decide)
  exact ⟨h.1, h.2.2.2.1⟩

/-! ### C4: the access filter -/

/-- Claim C4: with private-only mode on, a non-private conversation is
denied regardless of the allow-list; a private conversation whose
normalized key is on the allow-list is permitted; an empty allow-list
permits every private conversation; and a denied message produces no
outbound action at all. -/
theorem claim_C4 :
    (∀ env : Env, env.ONLY_PRIVATE = true → env.is_private = false →
      chat_is_allowed env = false)
    ∧ (∀ (env : Env) (k : String), env.is_private = true →
        _chat_key env = some k → pyLower k ∈ env.ALLOWED →
        chat_is_allowed env = true)
    ∧ (∀ env : Env, env.ALLOWED = [] → env.is_private = true →
        chat_is_allowed env = true)
    ∧ (∀ env : Env, chat_is_allowed env = false →
        (tiktok_handler env).actions = [] ∧ (tiktok_handler env).raised = none) := by
  refine ⟨?_, ?_, ?_, fun env h => handler_denied_no_actions env h⟩
  · intro env h1 h2
    unfold chat_is_allowed
    simp [h1, h2]
  · intro env k h1 h2 h3
    unfold chat_is_allowed
    rw [h2]
    simp only [h1, Bool.not_true, Bool.and_false, Bool.false_eq_true, if_false]
    by_cases he : env.ALLOWED.isEmpty <;> simp [he, h3]
  · intro env h1 h2
    unfold chat_is_allowed
    simp [h1, h2]

/-- Witness: a group chat with private-only on is denied silently; the
allow-listed private chat `@alice` is permitted; the baseline private chat
with an empty allow-list is permitted. -/
theorem claim_C4_witness :
    chat_is_allowed envGroupChat = false
    ∧ chat_is_allowed envOnAllowList = true
    ∧ chat_is_allowed baseEnv = true
    ∧ (tiktok_handler envGroupChat).actions = [] := by
  refine ⟨claim_C4.1 envGroupChat rfl rfl, ?_, claim_C4.2.2.1 baseEnv rfl rfl, ?_⟩
  · exact claim_C4.2.1 envOnAllowList "@alice" rfl (by decide) (by decide)
  · exact (claim_C4.2.2.2 envGroupChat (claim_C4.1 envGroupChat rfl rfl)).1

/-! ### C6: oversized video -/

theorem tryBody_video_too_big (env : Env) (out : VideoOutcome)
    (hcls : slideshow_decision (probe_tiktok env.probe) = false)
    (hev : env.fail .editVideoStatus = none)
    (hvf : env.video_fetch = .ok out)
    (hfound : out.found = true)
    (hbig : env.MAX_MB < human_mb out.size)
    (htb : env.fail .editTooBig = none) :
    (tryBody env).actions =
      [.edit .videoStatus, .edit (.sizeExceeded (human_mb out.size) env.MAX_MB)]
    ∧ (tryBody env).exc = none
    ∧ (tryBody env).videoRemains = false := by
  unfold tryBody
  simp [hcls, hev, hvf, hfound, hbig, htb]

/-- Claim C6: a downloaded video whose rounded megabyte size exceeds the
cap yields the size-exceeded edit of the progress message, the file is
deleted, no file send of any kind happens, and the handler returns normally
(nothing raised, nothing caught). -/
theorem claim_C6 :
    ∀ (env : Env) (raw : String) (out : VideoOutcome),
      chat_is_allowed env = true → env.matched = some raw →
      env.fail .initialReply = none →
      slideshow_decision (probe_tiktok env.probe) = false →
      env.fail .editVideoStatus = none →
      env.video_fetch = .ok out → out.found = true →
      env.MAX_MB < human_mb out.size →
      env.fail .editTooBig = none →
      Action.edit (.sizeExceeded (human_mb out.size) env.MAX_MB)
        ∈ (tiktok_handler env).actions
      ∧ (∀ q, Action.sendVideoFile q ∉ (tiktok_handler env).actions)
      ∧ (∀ fs c, Action.sendAlbum fs c ∉ (tiktok_handler env).actions)
      ∧ (tiktok_handler env).videoRemains = false
      ∧ (tiktok_handler env).raised = none
      ∧ (tiktok_handler env).caught = none := by
  intro env raw out hallow hm hr hcls hev hvf hfound hbig htb
  obtain ⟨hacts, hexc, _⟩ :=
    tryBody_video_too_big env out hcls hev hvf hfound hbig htb
  obtain ⟨tail, hsh, htail⟩ := handler_actions_shape env raw hallow hm hr
  rw [hacts] at hsh
  refine ⟨?_, ?_, ?_, ?_, handler_raised_none_of_no_exc env raw hallow hm hr hexc,
    by rw [handler_caught_eq env raw hallow hm hr, hexc]⟩
  · rw [hsh]; simp
  · intro q hmem
    rw [hsh] at hmem
    rcases htail with rfl | ⟨e, rfl⟩ <;> simp at hmem
  · intro fs c hmem
    rw [hsh] at hmem
    rcases htail with rfl | ⟨e, rfl⟩ <;> simp at hmem
  · unfold tiktok_handler
    rw [hallow, hm, hr]
    rfl

/-- Witness: the 25 MB download against the 20 MB cap is reported, deleted
and never sent. -/
theorem claim_C6_witness :
    Action.edit (.sizeExceeded (human_mb 26214400) envVideoTooBig.MAX_MB)
      ∈ (tiktok_handler envVideoTooBig).actions
    ∧ (∀ q, Action.sendVideoFile q ∉ (tiktok_handler envVideoTooBig).actions)
    ∧ (tiktok_handler envVideoTooBig).videoRemains = false := by
  have h := claim_C6 envVideoTooBig "https://www.tiktok.com/@u/video/1"
    ⟨true, 26214400⟩ (by decide) rfl rfl (by decide) rfl rfl rfl
    (by rw [show (26214400 : ℕ) = 25 * 1048576 by norm_num, human_mb_whole]
        norm_num [envVideoTooBig, baseEnv]) rfl
  exact ⟨h.1, h.2.1, h.2.2.2.1⟩

/-! ### C3: exception handling at the handler boundary -/

/-- Claim C3: not every exception path returns normally — when the video
download raises and the error-report edit of the progress message itself
raises (here: the progress message is gone), the second exception escapes
the handler into the event dispatcher. -/
theorem claim_C3_counterexample :
    (tiktok_handler envEditErrorFails).raised = some "MessageDeletedError"
    ∧ (tiktok_handler envEditErrorFails).caught = some "HTTP Error 500" := by
  with_unfolding_all decide

/-- Claim C3, amended: every exception raised inside the `try:` block
(probing, fetching, delivery) is caught at the handler boundary; provided
the error-report edit of the progress message itself succeeds (and the
initial acknowledgment reply succeeded), the handler edits the progress
message with the error text and returns normally.  If that error-report
edit raises, its exception propagates into the event dispatcher. -/
theorem claim_C3 :
    ∀ (env : Env) (raw : String),
      chat_is_allowed env = true → env.matched = some raw →
      env.fail .initialReply = none →
      env.fail .editError = none →
      (tiktok_handler env).raised = none
      ∧ (tiktok_handler env).caught = (tryBody env).exc
      ∧ (∀ e, (tryBody env).exc = some e →
          Action.edit (.errorText e) ∈ (tiktok_handler env).actions) := by
  intro env raw hallow hm hr he
  exact ⟨handler_raised_none env raw hallow hm hr he,
    handler_caught_eq env raw hallow hm hr,
    fun e hexc => handler_error_edit env raw e hallow hm hr he hexc⟩

/-- Witness: a failed video download is caught, reported via the progress
message, and nothing escapes the handler. -/
theorem claim_C3_witness :
    (tiktok_handler envFetchRaises).raised = none
    ∧ (Action.edit (.errorText "HTTP Error 500")
        ∈ (tiktok_handler envFetchRaises).actions) := by
  have h := claim_C3 envFetchRaises "https://www.tiktok.com/@u/video/1"
    (by decide) rfl rfl rfl
  exact ⟨h.1, h.2.2 "HTTP Error 500" (by with_unfolding_all decide)⟩

/-! ### C1: cleanup of temporary artifacts -/

/-- Claim C1: the slideshow directory is not removed on every path — on the
gallery-dl failure path (an error-return path) with auto-clean enabled, the
handler returns with the per-request slideshow directory still on disk. -/
theorem claim_C1_counterexample :
    envGalleryFails.AUTO_CLEAN = true
    ∧ (tiktok_handler envGalleryFails).slideDirCreated = true
    ∧ (tiktok_handler envGalleryFails).slideRemains = true
    ∧ (tiktok_handler envGalleryFails).raised = none := by
  with_unfolding_all decide

theorem tryBody_slide_state (env : Env) :
    (tryBody env).slideRemains
      = !(env.AUTO_CLEAN && (tryBody env).successSlideshow) := by
  unfold tryBody
  repeat' (split <;> try simp)

/-- Claim C1, amended: the per-request temporary video file is always
removed before the handler returns — on success, error-return and exception
paths alike, with or without auto-clean (the `finally:` block unlinks it
unconditionally) — but the slideshow directory is removed exactly when the
slideshow branch delivered successfully and auto-clean is enabled; on
slideshow error paths, on exception paths, and whenever auto-clean is
disabled, the directory survives the handler's return. -/
theorem claim_C1 :
    ∀ env : Env,
      (tiktok_handler env).videoRemains = false
      ∧ (tiktok_handler env).slideRemains
          = ((tiktok_handler env).slideDirCreated
             && !(env.AUTO_CLEAN && (tiktok_handler env).successSlideshow)) := by
  intro env
  unfold tiktok_handler
  cases hallow : chat_is_allowed env
  · simp
  · cases hm : env.matched with
    | none => simp
    | some raw =>
        cases hr : env.fail .initialReply with
        | some e => simp
        | none =>
            refine ⟨rfl, ?_⟩
            show (tryBody env).slideRemains
              = (true && !(env.AUTO_CLEAN && (tryBody env).successSlideshow))
            rw [Bool.true_and]
            exact tryBody_slide_state env

/-! ### C10: size comparisons on rounded megabytes -/

theorem roundHalfEven_le_of_lt (x : ℚ) (n : ℤ) (h : x < (n : ℚ) + 1/2) :
    roundHalfEven x ≤ n := by
  have hfeq : x.floor = ⌊x⌋ := rat_floor_eq_intFloor x
  have hfl : ⌊x⌋ ≤ n := by
    by_contra hc
    have h1 : n + 1 ≤ ⌊x⌋ := by omega
    have h2 : ((n : ℚ) + 1) ≤ (⌊x⌋ : ℚ) := by exact_mod_cast h1
    have h3 : (⌊x⌋ : ℚ) ≤ x := Int.floor_le x
    linarith
  have hre : roundHalfEven x
      = if x - (⌊x⌋ : ℚ) < 1/2 then ⌊x⌋
        else if 1/2 < x - (⌊x⌋ : ℚ) then ⌊x⌋ + 1
        else if ⌊x⌋ % 2 = 0 then ⌊x⌋ else ⌊x⌋ + 1 := by
    unfold roundHalfEven
    rw [hfeq]
  rw [hre]
  split
  · exact hfl
  · split
    · rename_i h1 h2
      have h3 : (⌊x⌋ : ℚ) + 1/2 < x := by linarith
      have h4 : (⌊x⌋ : ℚ) < (n : ℚ) := by linarith
      have h5 : ⌊x⌋ < n := by exact_mod_cast h4
      omega
    · split
      · exact hfl
      · rename_i h1 h2 h3
        have hx : x - (⌊x⌋ : ℚ) = 1/2 :=
          le_antisymm (not_lt.mp h2) (not_lt.mp h1)
        have h4 : (⌊x⌋ : ℚ) < (n : ℚ) := by linarith
        have h5 : ⌊x⌋ < n := by exact_mod_cast h4
        omega

theorem human_mb_le_of_slack (b : ℕ) (cap : ℕ)
    (hb : (b : ℚ) ≤ (cap : ℚ) * 1048576 + 5242) :
    human_mb b ≤ (cap : ℚ) := by
  unfold human_mb
  have hx : (b : ℚ) * 100 / (1024 * 1024) < ((cap * 100 : ℤ) : ℚ) + 1/2 := by
    push_cast
    rw [div_lt_iff₀ (by norm_num : (0:ℚ) < 1024 * 1024)]
    nlinarith
  have hr := roundHalfEven_le_of_lt _ _ hx
  have hrq : ((roundHalfEven ((b : ℚ) * 100 / (1024 * 1024)) : ℤ) : ℚ)
      ≤ ((cap * 100 : ℤ) : ℚ) := by exact_mod_cast hr
  push_cast at hrq ⊢
  linarith

theorem tryBody_video_sent (env : Env) (out : VideoOutcome)
    (hcls : slideshow_decision (probe_tiktok env.probe) = false)
    (hev : env.fail .editVideoStatus = none)
    (hvf : env.video_fetch = .ok out)
    (hfound : out.found = true)
    (hsize : ¬(env.MAX_MB < human_mb out.size))
    (hesv : env.fail .editSendingVideo = none)
    (hsnd : env.fail .sendVideo = none) :
    Action.sendVideoFile (human_mb out.size) ∈ (tryBody env).actions := by
  unfold tryBody
  simp only [hcls, hev, hvf, hfound, hsize, hesv, hsnd, Bool.false_eq_true,
    if_false, Bool.not_true, if_neg]
  split <;> simp

/-- Claim C10: every size-cap comparison is made on the byte size converted
to megabytes and rounded half-to-even at two decimals, so a file up to
0.005 MB (5242 bytes) over a whole-megabyte cap still rounds down to the
cap: it passes the image filter and the video is sent. -/
theorem claim_C10 :
    (∀ (b cap : ℕ), (b : ℚ) ≤ (cap : ℚ) * 1048576 + 5242 →
        human_mb b ≤ (cap : ℚ))
    ∧ (∀ (imgs : List Image) (cap : ℕ), ∀ img ∈ imgs,
        (img.size : ℚ) ≤ (cap : ℚ) * 1048576 + 5242 →
        img ∈ (filter_images_by_size imgs (cap : ℚ)).1)
    ∧ (∀ (env : Env) (raw : String) (out : VideoOutcome) (cap : ℕ),
        chat_is_allowed env = true → env.matched = some raw →
        env.fail .initialReply = none →
        slideshow_decision (probe_tiktok env.probe) = false →
        env.fail .editVideoStatus = none →
        env.video_fetch = .ok out → out.found = true →
        env.MAX_MB = (cap : ℚ) →
        (out.size : ℚ) ≤ (cap : ℚ) * 1048576 + 5242 →
        env.fail .editSendingVideo = none →
        env.fail .sendVideo = none →
        Action.sendVideoFile (human_mb out.size) ∈ (tiktok_handler env).actions) := by
  refine ⟨human_mb_le_of_slack, ?_, ?_⟩
  · intro imgs cap img hmem hslack
    rw [(filter_images_spec imgs (cap : ℚ)).1]
    exact List.mem_filter.mpr
      ⟨hmem, by simp [human_mb_le_of_slack img.size cap hslack]⟩
  · intro env raw out cap hallow hm hr hcls hev hvf hfound hcap hslack hesv hsnd
    have hsize : ¬(env.MAX_MB < human_mb out.size) := by
      rw [hcap]
      exact not_lt.mpr (human_mb_le_of_slack out.size cap hslack)
    have hv := tryBody_video_sent env out hcls hev hvf hfound hsize hesv hsnd
    obtain ⟨tail, hsh, _⟩ := handler_actions_shape env raw hallow hm hr
    rw [hsh]
    exact List.mem_cons_of_mem _ (List.mem_append_left _ hv)

/-- Witness: a 20976762-byte file (5242 bytes over 20 MB) still rounds to
20.00 MB and the video is sent. -/
theorem claim_C10_witness :
    human_mb 20976762 ≤ ((20 : ℕ) : ℚ)
    ∧ Action.sendVideoFile (human_mb 20976762)
        ∈ (tiktok_handler envVideoJustOver).actions := by
  constructor
  · exact claim_C10.1 20976762 20 (by norm_num)
  · exact claim_C10.2.2 envVideoJustOver "https://www.tiktok.com/@u/video/1"
      ⟨true, 20976762⟩ 20 (by decide) rfl rfl (by decide) rfl rfl rfl
      (by norm_num [envVideoJustOver, baseEnv]) (by norm_num) rfl rfl

/-! ### C8: URL normalization — helper lemmas -/

theorem lowerChar_scheme (c : Char) (h : scheme_char c = true) :
    scheme_char (lowerChar c) = true := by
  unfold lowerChar
  split
  all_goals first | decide | exact h

theorem lowerChar_spec (c : Char) :
    lowerChar c = c ∨ ∃ d, lowerChar c = d ∧ lowerChar d = d := by
  unfold lowerChar
  split
  · exact Or.inr ⟨'a', by decide, by decide⟩
  · exact Or.inr ⟨'b', by decide, by decide⟩
  · exact Or.inr ⟨'c', by decide, by decide⟩
  · exact Or.inr ⟨'d', by decide, by decide⟩
  · exact Or.inr ⟨'e', by decide, by decide⟩
  · exact Or.inr ⟨'f', by decide, by decide⟩
  · exact Or.inr ⟨'g', by decide, by decide⟩
  · exact Or.inr ⟨'h', by decide, by decide⟩
  · exact Or.inr ⟨'i', by decide, by decide⟩
  · exact Or.inr ⟨'j', by decide, by decide⟩
  · exact Or.inr ⟨'k', by decide, by decide⟩
  · exact Or.inr ⟨'l', by decide, by decide⟩
  · exact Or.inr ⟨'m', by decide, by decide⟩
  · exact Or.inr ⟨'n', by decide, by decide⟩
  · exact Or.inr ⟨'o', by decide, by decide⟩
  · exact Or.inr ⟨'p', by decide, by decide⟩
  · exact Or.inr ⟨'q', by decide, by decide⟩
  · exact Or.inr ⟨'r', by decide, by decide⟩
  · exact Or.inr ⟨'s', by decide, by decide⟩
  · exact Or.inr ⟨'t', by decide, by decide⟩
  · exact Or.inr ⟨'u', by decide, by decide⟩
  · exact Or.inr ⟨'v', by decide, by decide⟩
  · exact Or.inr ⟨'w', by decide, by decide⟩
  · exact Or.inr ⟨'x', by decide, by decide⟩
  · exact Or.inr ⟨'y', by decide, by decide⟩
  · exact Or.inr ⟨'z', by decide, by decide⟩
  · exact Or.inl rfl

theorem lowerChar_idem (c : Char) : lowerChar (lowerChar c) = lowerChar c := by
  rcases lowerChar_spec c with h | ⟨d, h1, h2⟩
  · rw [h]
    exact h
  · rw [h1]
    exact h2

theorem lowerChar_isAlpha (c : Char) : (lowerChar c).isAlpha = c.isAlpha := by
  unfold lowerChar
  split
  all_goals first | decide | rfl

theorem splitOnFirst_not_mem (d : Char) (u : List Char) :
    d ∉ (splitOnFirst d u).1 := by
  induction u with
  | nil => simp [splitOnFirst]
  | cons c rest ih =>
      by_cases h : c = d <;> simp [splitOnFirst, h, ih]
      exact fun hdc => absurd hdc.symm h

theorem splitOnFirst_subset (d c : Char) (u : List Char)
    (h : c ∈ (splitOnFirst d u).1) : c ∈ u := by
  induction u with
  | nil => simp [splitOnFirst] at h
  | cons a rest ih =>
      by_cases ha : a = d
      · simp [splitOnFirst, ha] at h
      · simp [splitOnFirst, ha] at h
        rcases h with rfl | h
        · exact List.mem_cons_self _ _
        · exact List.mem_cons_of_mem _ (ih h)

theorem splitOnFirst_of_not_mem (d : Char) (u : List Char) (h : d ∉ u) :
    splitOnFirst d u = (u, []) := by
  induction u with
  | nil => rfl
  | cons c rest ih =>
      have hcd : ¬(c = d) := fun hc => h (hc ▸ List.mem_cons_self _ _)
      have hr : d ∉ rest := fun hm => h (List.mem_cons_of_mem _ hm)
      simp [splitOnFirst, hcd, ih hr]

theorem splitOnFirst_cons_ne (d c : Char) (t : List Char) (h : ¬(c = d)) :
    splitOnFirst d (c :: t)
      = (c :: (splitOnFirst d t).1, (splitOnFirst d t).2) := by
  simp [splitOnFirst, h]

theorem splitOnFirst_fst_start (d : Char) (u : List Char) :
    ∃ t, u = (splitOnFirst d u).1 ++ t := by
  induction u with
  | nil => exact ⟨[], rfl⟩
  | cons c rest ih =>
      by_cases h : c = d
      · exact ⟨c :: rest, by simp [splitOnFirst, h]⟩
      · obtain ⟨t, ht⟩ := ih
        exact ⟨t, by rw [splitOnFirst_cons_ne d c rest h]; simpa using ht⟩

theorem takeWhile_append_all (q : Char → Bool) (n p : List Char)
    (h : n.all q = true) :
    (n ++ p).takeWhile q = n ++ p.takeWhile q := by
  induction n with
  | nil => simp
  | cons c rest ih =>
      simp only [List.all_cons, Bool.and_eq_true] at h
      simp [List.takeWhile_cons, h.1, ih h.2]

theorem dropWhile_append_all (q : Char → Bool) (n p : List Char)
    (h : n.all q = true) :
    (n ++ p).dropWhile q = p.dropWhile q := by
  induction n with
  | nil => simp
  | cons c rest ih =>
      simp only [List.all_cons, Bool.and_eq_true] at h
      simp [List.dropWhile_cons, h.1, ih h.2]

theorem takeWhile_all_sat (q : Char → Bool) (l : List Char) :
    (l.takeWhile q).all q = true := by
  induction l with
  | nil => simp
  | cons c rest ih =>
      by_cases h : q c <;> simp [List.takeWhile_cons, h, ih]

theorem dropWhile_head_false (q : Char → Bool) (l : List Char) (c : Char)
    (t : List Char) (h : l.dropWhile q = c :: t) : q c = false := by
  induction l with
  | nil => simp at h
  | cons a rest ih =>
      by_cases ha : q a
      · simp [List.dropWhile_cons, ha] at h
        exact ih h
      · simp [List.dropWhile_cons, ha] at h
        rw [← h.1]
        exact Bool.of_not_eq_true ha

theorem dropWhile_idem (q : Char → Bool) (l : List Char) :
    (l.dropWhile q).dropWhile q = l.dropWhile q := by
  cases h : l.dropWhile q with
  | nil => rfl
  | cons c t =>
      have hc := dropWhile_head_false q l c t h
      simp [List.dropWhile_cons, hc]

theorem rstripSlash_idem (u : List Char) :
    rstripSlash (rstripSlash u) = rstripSlash u := by
  unfold rstripSlash
  rw [List.reverse_reverse, dropWhile_idem]

theorem rstripSlash_decomp (u : List Char) :
    ∃ t, u = rstripSlash u ++ t := by
  refine ⟨(u.reverse.takeWhile (fun c => c = '/')).reverse, ?_⟩
  unfold rstripSlash
  rw [← List.reverse_append, List.takeWhile_append_dropWhile, List.reverse_reverse]

theorem rstripSlash_subset (u : List Char) (c : Char)
    (h : c ∈ rstripSlash u) : c ∈ u := by
  obtain ⟨t, ht⟩ := rstripSlash_decomp u
  rw [ht]
  exact List.mem_append_left _ h

theorem rstripSlash_head (u : List Char) :
    rstripSlash u = [] ∨ (rstripSlash u).head? = u.head? := by
  obtain ⟨t, ht⟩ := rstripSlash_decomp u
  cases hr : rstripSlash u with
  | nil => exact Or.inl rfl
  | cons c r =>
      right
      rw [ht, hr]
      rfl

theorem scanScheme_append (s r : List Char) (hs : s.all scheme_char = true) :
    scanScheme (s ++ ':' :: r) = some (s, r) := by
  induction s with
  | nil => simp [scanScheme]
  | cons c rest ih =>
      simp only [List.all_cons, Bool.and_eq_true] at hs
      have hcn : ¬(c = ':') := by
        intro hc
        rw [hc] at hs
        exact absurd hs.1 (by decide)
      simp [scanScheme, hcn, hs.1, ih hs.2]

theorem scanScheme_some (q : List Char) :
    ∀ s r, scanScheme q = some (s, r) →
      q = s ++ ':' :: r ∧ s.all scheme_char = true := by
  induction q with
  | nil => intro s r h; simp [scanScheme] at h
  | cons c rest ih =>
      intro s r h
      by_cases hc : c = ':'
      · simp [scanScheme, hc] at h
        obtain ⟨rfl, rfl⟩ := h
        exact ⟨by simp [hc], rfl⟩
      · by_cases hsc : scheme_char c
        · simp only [scanScheme, if_neg hc, if_pos hsc] at h
          cases hrec : scanScheme rest with
          | none => rw [hrec] at h; simp at h
          | some pr =>
              obtain ⟨s', r'⟩ := pr
              rw [hrec] at h
              simp only [Option.some.injEq, Prod.mk.injEq] at h
              obtain ⟨hs, hr⟩ := h
              obtain ⟨hq, hall⟩ := ih s' r' hrec
              subst hs
              subst hr
              exact ⟨by simp [hq], by simp [hsc, hall]⟩
        · simp [scanScheme, hc, hsc] at h

theorem splitScheme_valid (s r : List Char) (hs : s.all scheme_char = true)
    (hne : s ≠ []) (hhead : s.head?.any Char.isAlpha = true) :
    splitScheme (s ++ ':' :: r) = (s.map lowerChar, r) := by
  cases s with
  | nil => exact absurd rfl hne
  | cons c s' =>
      simp only [List.head?_cons, Option.any_some] at hhead
      have hscan := scanScheme_append (c :: s') r hs
      rw [List.cons_append] at hscan
      simp [splitScheme, hhead, hscan]

theorem splitScheme_slash (u : List Char) :
    splitScheme ('/' :: u) = ([], '/' :: u) := by
  simp [splitScheme]

theorem splitScheme_fst_nil (u : List Char)
    (h : (splitScheme u).1 = []) : splitScheme u = ([], u) := by
  cases u with
  | nil => rfl
  | cons c t =>
      by_cases ha : c.isAlpha
      · simp only [splitScheme, ha, if_pos] at h ⊢
        cases hsc : scanScheme (c :: t) with
        | none => simp
        | some pr =>
            obtain ⟨s, r⟩ := pr
            rw [hsc] at h
            by_cases hs : s = []
            · simp [hs]
            · simp [hs] at h ⊢
      · simp [splitScheme, ha]

theorem splitScheme_none_of_start (u q : List Char)
    (hu : splitScheme u = ([], u)) (hq : ∃ t, u = q ++ t) :
    splitScheme q = ([], q) := by
  obtain ⟨t, rfl⟩ := hq
  cases q with
  | nil => rfl
  | cons c q' =>
      by_cases ha : c.isAlpha
      · cases hsc : scanScheme (c :: q') with
        | none => simp [splitScheme, ha, hsc]
        | some pr =>
            obtain ⟨s, r⟩ := pr
            obtain ⟨hdecomp, hall⟩ := scanScheme_some _ _ _ hsc
            have hs_ne : s ≠ [] := by
              intro hs
              rw [hs] at hdecomp
              simp at hdecomp
              rw [hdecomp.1] at ha
              exact absurd ha (by decide)
            have hu_scan : scanScheme ((c :: q') ++ t) = some (s, r ++ t) := by
              rw [hdecomp]
              simpa using scanScheme_append s (r ++ t) hall
            rw [show (c :: q') ++ t = c :: (q' ++ t) from rfl] at hu_scan
            have hcompute : splitScheme (c :: (q' ++ t))
                = (s.map lowerChar, r ++ t) := by
              simp [splitScheme, ha, hu_scan, hs_ne]
            rw [List.cons_append, hcompute] at hu
            simp only [Prod.mk.injEq] at hu
            exact absurd (List.map_eq_nil_iff.mp hu.1) hs_ne
      · simp [splitScheme, ha]

theorem splitNetloc_dslash (w : List Char) :
    splitNetloc ('/' :: '/' :: w)
      = (w.takeWhile (fun c => !netloc_delim c),
         w.dropWhile (fun c => !netloc_delim c)) := rfl

theorem splitNetloc_reassemble (n p : List Char)
    (hn : n.all (fun c => !netloc_delim c) = true)
    (hp : p = [] ∨ p.head? = some '/') :
    splitNetloc ('/' :: '/' :: (n ++ p)) = (n, p) := by
  rw [splitNetloc_dslash]
  have htw : p.takeWhile (fun c => !netloc_delim c) = [] := by
    rcases hp with rfl | hp
    · rfl
    · cases p with
      | nil => rfl
      | cons c t =>
          simp only [List.head?_cons, Option.some.injEq] at hp
          subst hp
          simp [List.takeWhile_cons, netloc_delim]
  have hdw : p.dropWhile (fun c => !netloc_delim c) = p := by
    rcases hp with rfl | hp
    · rfl
    · cases p with
      | nil => rfl
      | cons c t =>
          simp only [List.head?_cons, Option.some.injEq] at hp
          subst hp
          simp [List.dropWhile_cons, netloc_delim]
  rw [takeWhile_append_all _ _ _ hn, dropWhile_append_all _ _ _ hn, htw, hdw]
  simp

theorem urlsplit_eq (u : List Char) :
    urlsplit u =
      ⟨(splitScheme u).1,
       (splitNetloc (splitScheme u).2).1,
       (splitOnFirst '?' (splitOnFirst '#' (splitNetloc (splitScheme u).2).2).1).1,
       (splitOnFirst '?' (splitOnFirst '#' (splitNetloc (splitScheme u).2).2).1).2,
       (splitOnFirst '#' (splitNetloc (splitScheme u).2).2).2⟩ := rfl

theorem urlsplit_scheme_inv (u : List Char) :
    (urlsplit u).scheme = []
    ∨ ((urlsplit u).scheme.all scheme_char = true
       ∧ (urlsplit u).scheme.map lowerChar = (urlsplit u).scheme
       ∧ (urlsplit u).scheme.head?.any Char.isAlpha = true) := by
  rw [urlsplit_eq]
  simp only
  cases u with
  | nil => exact Or.inl rfl
  | cons c t =>
      by_cases ha : c.isAlpha
      · cases hsc : scanScheme (c :: t) with
        | none => simp [splitScheme, ha, hsc]
        | some pr =>
            obtain ⟨s, r⟩ := pr
            by_cases hs : s = []
            · simp [splitScheme, ha, hsc, hs]
            · right
              obtain ⟨hdecomp, hall⟩ := scanScheme_some _ _ _ hsc
              simp only [splitScheme, ha, if_pos, hsc, hs, if_false]
              refine ⟨?_, ?_, ?_⟩
              · rw [List.all_map]
                refine List.all_eq_true.mpr fun c hc => ?_
                exact lowerChar_scheme c (List.all_eq_true.mp hall c hc)
              · rw [List.map_map]
                exact List.map_congr_left fun c _ => lowerChar_idem c
              · cases s with
                | nil => exact absurd rfl hs
                | cons c0 s' =>
                    have hc0 : c0 = c := by
                      have := hdecomp
                      simp at this
                      exact this.1.symm
                    simp [hc0, lowerChar_isAlpha, ha]
      · simp [splitScheme, ha]

theorem urlsplit_netloc_inv (u : List Char) :
    (urlsplit u).netloc.all (fun c => !netloc_delim c) = true := by
  rw [urlsplit_eq]
  simp only
  rcases hsp : (splitScheme u).2 with _ | ⟨c1, _ | ⟨c2, t⟩⟩
  · simp [splitNetloc]
  · unfold splitNetloc
    split
    · rename_i heq
      simp at heq
    · simp
  · by_cases h1 : c1 = '/'
    · by_cases h2 : c2 = '/'
      · subst h1
        subst h2
        rw [splitNetloc_dslash]
        exact takeWhile_all_sat _ _
      · unfold splitNetloc
        split
        · rename_i heq
          simp at heq
          exact absurd heq.2.1 h2
        · simp
    · unfold splitNetloc
      split
      · rename_i heq
        simp at heq
        exact absurd heq.1 h1
      · simp

theorem urlsplit_path_marks (u : List Char) :
    '#' ∉ (urlsplit u).path ∧ '?' ∉ (urlsplit u).path := by
  rw [urlsplit_eq]
  simp only
  constructor
  · intro hmem
    exact splitOnFirst_not_mem '#' _ (splitOnFirst_subset '?' '#' _ hmem)
  · exact splitOnFirst_not_mem '?' _

theorem urlsplit_path_head (u : List Char)
    (hn : (urlsplit u).netloc ≠ []) :
    (urlsplit u).path = [] ∨ (urlsplit u).path.head? = some '/' := by
  rw [urlsplit_eq] at hn ⊢
  simp only at hn ⊢
  rcases hs2 : (splitNetloc (splitScheme u).2) with ⟨nl, r2⟩
  rw [hs2] at hn
  simp only at hn ⊢
  have hr2 : r2 = [] ∨ ∃ c t, r2 = c :: t ∧ netloc_delim c = true := by
    unfold splitNetloc at hs2
    split at hs2
    · rename_i rest heq
      simp only [Prod.mk.injEq] at hs2
      cases hd : rest.dropWhile (fun c => !netloc_delim c) with
      | nil => exact Or.inl (hs2.2 ▸ hd ▸ rfl)
      | cons c t =>
          right
          refine ⟨c, t, by rw [← hs2.2, hd], ?_⟩
          have := dropWhile_head_false _ _ _ _ hd
          simpa using this
    · simp only [Prod.mk.injEq] at hs2
      exact absurd hs2.1.symm hn
  rcases hr2 with rfl | ⟨c, t, rfl, hdelim⟩
  · left
    rfl
  · have hcases : c = '/' ∨ c = '?' ∨ c = '#' := by
      unfold netloc_delim at hdelim
      simp only [Bool.or_eq_true, decide_eq_true_eq] at hdelim
      tauto
    rcases hcases with rfl | rfl | rfl
    · right
      rw [splitOnFirst_cons_ne '#' '/' t (by decide),
          splitOnFirst_cons_ne '?' '/' _ (by decide)]
      rfl
    · left
      rw [splitOnFirst_cons_ne '#' '?' t (by decide)]
      simp [splitOnFirst]
    · left
      simp [splitOnFirst]

theorem urlsplit_urlunsplit (s n p : List Char)
    (hn : n ≠ [])
    (hnall : n.all (fun c => !netloc_delim c) = true)
    (hs : s = [] ∨ (s.all scheme_char = true ∧ s.map lowerChar = s
                    ∧ s.head?.any Char.isAlpha = true))
    (hph : p = [] ∨ p.head? = some '/')
    (hhash : '#' ∉ p) (hqm : '?' ∉ p) :
    urlsplit (urlunsplit ⟨s, n, p, [], []⟩) = ⟨s, n, p, [], []⟩ := by
  have hv : urlunsplit ⟨s, n, p, [], []⟩ =
      (if s ≠ [] then s ++ ':' :: ('/' :: '/' :: (n ++ p))
       else '/' :: '/' :: (n ++ p)) := by
    unfold urlunsplit
    have hinner : ¬(p ≠ [] ∧ p.take 1 ≠ ['/']) := by
      rcases hph with rfl | hp
      · simp
      · cases p with
        | nil => simp
        | cons c t =>
            simp only [List.head?_cons, Option.some.injEq] at hp
            subst hp
            simp
    simp only [if_pos (Or.inl hn : n ≠ [] ∨ (s ≠ [] ∧ s ∈ uses_netloc
        ∧ p.take 2 ≠ ['/', '/'])), if_neg hinner]
    simp
  rw [hv]
  rcases hs with rfl | ⟨hall, hmap, hhead⟩
  · simp only [ne_eq, not_true_eq_false, if_false]
    unfold urlsplit
    simp [splitScheme_slash, splitNetloc_reassemble n p hnall hph,
      splitOnFirst_of_not_mem '#' p hhash, splitOnFirst_of_not_mem '?' p hqm]
  · have hsne : s ≠ [] := by
      intro h
      rw [h] at hhead
      simp at hhead
    rw [if_pos hsne]
    unfold urlsplit
    simp [splitScheme_valid s _ hall hsne hhead, hmap,
      splitNetloc_reassemble n p hnall hph,
      splitOnFirst_of_not_mem '#' p hhash, splitOnFirst_of_not_mem '?' p hqm]

/-- Claim C8: normalization is idempotent on every URL with an authority
component (every link the matcher can produce has scheme `http(s)` and a
non-empty host, hence a non-empty netloc), and any two URLs with the same
scheme, the same netloc and the same slash-stripped path — in particular
two URLs differing only by a trailing slash or by their query/fragment —
normalize to the same string. -/
theorem claim_C8 :
    (∀ u : List Char, (urlsplit u).netloc ≠ [] →
        normalize_tiktok_url (normalize_tiktok_url u) = normalize_tiktok_url u)
    ∧ (∀ u v : List Char,
        (urlsplit u).scheme = (urlsplit v).scheme →
        (urlsplit u).netloc = (urlsplit v).netloc →
        rstripSlash (urlsplit u).path = rstripSlash (urlsplit v).path →
        normalize_tiktok_url u = normalize_tiktok_url v) := by
  constructor
  · intro u hn
    have hnall := urlsplit_netloc_inv u
    have hs := urlsplit_scheme_inv u
    obtain ⟨hhash, hqm⟩ := urlsplit_path_marks u
    have hph : rstripSlash (urlsplit u).path = []
        ∨ (rstripSlash (urlsplit u).path).head? = some '/' := by
      rcases rstripSlash_head (urlsplit u).path with h | h
      · exact Or.inl h
      · rcases urlsplit_path_head u hn with hp | hp
        · left
          rw [hp]
          rfl
        · right
          rw [h, hp]
    have hhash' : '#' ∉ rstripSlash (urlsplit u).path :=
      fun hmem => hhash (rstripSlash_subset _ _ hmem)
    have hqm' : '?' ∉ rstripSlash (urlsplit u).path :=
      fun hmem => hqm (rstripSlash_subset _ _ hmem)
    have hround := urlsplit_urlunsplit (urlsplit u).scheme (urlsplit u).netloc
      (rstripSlash (urlsplit u).path) hn hnall hs hph hhash' hqm'
    unfold normalize_tiktok_url
    rw [hround]
    simp [rstripSlash_idem]
  · intro u v h1 h2 h3
    show urlunsplit ⟨(urlsplit u).scheme, (urlsplit u).netloc,
        rstripSlash (urlsplit u).path, [], []⟩
      = urlunsplit ⟨(urlsplit v).scheme, (urlsplit v).netloc,
        rstripSlash (urlsplit v).path, [], []⟩
    rw [h1, h2, h3]

/-- Witness: a concrete platform URL normalizes idempotently, and its
trailing-slash and query/fragment variants normalize identically. -/
theorem claim_C8_witness :
    normalize_tiktok_url
        (normalize_tiktok_url "https://www.tiktok.com/@u/video/123/".toList)
      = normalize_tiktok_url "https://www.tiktok.com/@u/video/123/".toList
    ∧ normalize_tiktok_url "https://www.tiktok.com/@u/video/123/".toList
      = normalize_tiktok_url "https://www.tiktok.com/@u/video/123?q=1#frag".toList := by
  exact ⟨claim_C8.1 _ (by decide), claim_C8.2 _ _ (by decide) (by decide) (by decide)⟩

end TikTokBot
